import Mathlib

/-!
Verification development for the dev-report multi-repository analysis
pipeline: a shallow embedding of discovery.py, git_stats.py, github_prs.py
and the windowing logic of cli.py, together with theorems about the
windowing, filtering, partitioning and error-handling behaviour.

Modelling conventions:
* Timestamps (Python aware datetimes compared as instants) are modelled as
  Int values (seconds since the epoch).
* Filesystem paths are modelled as plain strings of slash-separated
  segments; a Path value's name attribute is the last slash-separated
  segment.
* External I/O (opening a repository, iterating its history, the gh
  subprocess, the directory walk) is modelled by passing the outcome of
  the I/O in as data: a history walk is a list whose elements are either a
  commit or the exception message the iterator raised at that point, the
  gh invocation outcome is a sum of exit-failure / JSON-failure / decoded
  records, and the directory walk is the list of repository paths it
  found.
-/

namespace DevReport

/-! ## Data model (git_stats.py dataclasses) -/

/-- CommitInfo from git_stats.py: information about a single commit. -/
structure CommitInfo where
  sha : String
  message : String
  author_email : String
  authored_date : Int
  lines_added : Int
  lines_removed : Int
  files_changed : Int
  deriving DecidableEq

/-- RepoStats from git_stats.py: statistics for a single repository
(the RepositoryExtraction of the spec). -/
structure RepoStats where
  path : String
  name : String
  commits : List CommitInfo
  error : Option String
  deriving DecidableEq

/-- Splitting a character list on a separator character, used to model
Python str.split and Path.name. (The core String.splitOn is avoided
because its byte-position loops do not reduce inside the kernel.) -/
def splitOnChar (sep : Char) : List Char → List (List Char)
  | [] => [ []]
  | c :: rest =>
    match splitOnChar sep rest with
    | [] => [ [c]]
    | h :: t => if c == sep then [] :: h :: t else (c :: h) :: t

/-- Python str.lower, modelled by mapping Char.toLower over the
characters. -/
def strLower (s : String) : String :=
  String.mk (s.data.map Char.toLower)

/-- Python str.strip: remove leading and trailing whitespace. -/
def strTrim (s : String) : String :=
  String.mk
    (((s.data.dropWhile Char.isWhitespace).reverse.dropWhile
      Char.isWhitespace).reverse)

/-- Python Path.name: the last slash-separated segment of a path. -/
def pathName (p : String) : String :=
  String.mk ((splitOnChar '/' p.data).getLastD [])

/-! ## Commit extraction (git_stats.py) -/

/-- A commit as yielded by repo.iter_commits, before normalization:
full hex sha, full message, optional author email, authored timestamp,
and the diffstat outcome (none models commit.stats raising, in which
case get_commit_stats substitutes zeros). -/
structure RawCommit where
  hexsha : String
  message : String
  author_email : Option String
  authored_date : Int
  stats : Option (Int × Int × Int)
  deriving DecidableEq

/-- get_commit_stats from git_stats.py: insertions, deletions, files
changed; on any failure computing the diffstat it returns zeros. -/
def get_commit_stats (c : RawCommit) : Int × Int × Int :=
  c.stats.getD (0, 0, 0)

/-- The lowercased author email used for filtering (git_stats.py line 84):
commit.author.email.lower() if the email is present, else the empty
string. -/
def commitEmailLower (c : RawCommit) : String :=
  match c.author_email with
  | some e => strLower e
  | none => ""

/-- The CommitInfo record appended for a surviving commit
(git_stats.py lines 102-112): sha truncated to 8 characters, first line
of the message truncated to 80 characters, email defaulted to the empty
string, and the diffstat from get_commit_stats. -/
def mkCommitInfo (c : RawCommit) : CommitInfo :=
  let s := get_commit_stats c
  { sha := c.hexsha.take 8
    message := (String.mk ((splitOnChar '\n' c.message.data).headD [])).take 80
    author_email := c.author_email.getD ""
    authored_date := c.authored_date
    lines_added := s.1
    lines_removed := s.2.1
    files_changed := s.2.2 }

/-- The combined keep-condition of the two continue statements in the
walk loop (git_stats.py lines 87 and 97): the commit survives iff it is
not skipped by the author filter and not skipped by the date re-check. -/
def keepCommit (authorsLower : List String) (since : Int) (c : RawCommit) : Bool :=
  !(!authorsLower.isEmpty && !authorsLower.contains (commitEmailLower c)) &&
  !(decide (c.authored_date < since))

/-- The history-walk loop of analyze_repo (git_stats.py lines 83-112).
The input list is the iterator's behaviour: an element is either the next
commit or the message of the exception the iterator raised at that point.
Returns the accumulated CommitInfo list and the error (if any); note that
on an exception the commits accumulated so far are kept, because the
except clause only sets stats.error (line 114) and returns stats. -/
def walkCommits (authorsLower : List String) (since : Int) :
    List (Except String RawCommit) → List CommitInfo × Option String
  | [] => ([], none)
  | Except.error e :: _ => ([], some e)
  | Except.ok c :: rest =>
    if !authorsLower.isEmpty && !authorsLower.contains (commitEmailLower c) then
      walkCommits authorsLower since rest
    else if decide (c.authored_date < since) then
      walkCommits authorsLower since rest
    else
      let r := walkCommits authorsLower since rest
      (mkCommitInfo c :: r.1, r.2)

/-- The outcome of Repo(repo_path): InvalidGitRepositoryError, or a valid
repository with its bare flag and the behaviour of iter_commits. -/
inductive RepoAccess
  | invalid
  | valid (bare : Bool) (iter : List (Except String RawCommit))

/-- analyze_repo from git_stats.py: analyze a git repository for commits
by specified authors since a date. The repository-opening outcome and the
history iterator's behaviour are passed in as data (they are external
I/O). -/
def analyze_repo (repo_path : String) (access : RepoAccess)
    (author_emails : List String) (since : Int) : RepoStats :=
  match access with
  | RepoAccess.invalid =>
    { path := repo_path, name := pathName repo_path, commits := [],
      error := some "Not a valid git repository" }
  | RepoAccess.valid true _ =>
    { path := repo_path, name := pathName repo_path, commits := [],
      error := some "Bare repository" }
  | RepoAccess.valid false iter =>
    let authorsLower := author_emails.map strLower
    let r := walkCommits authorsLower since iter
    { path := repo_path, name := pathName repo_path, commits := r.1,
      error := r.2 }

/-! ## PR fetching (github_prs.py) -/

/-- PRInfo from github_prs.py: information about a pull request. -/
structure PRInfo where
  number : Int
  title : String
  state : String
  created_at : Int
  merged_at : Option Int
  url : String
  deriving DecidableEq

/-- RepoPRs from github_prs.py: PRs for a repository (the RepositoryPRs
of the spec). -/
structure RepoPRs where
  repo_path : String
  repo_name : String
  owner : String
  prs_opened : List PRInfo
  prs_merged : List PRInfo
  error : Option String
  deriving DecidableEq

/-- The warning string returned by show_gh_warning. -/
def ghWarningMsg : String :=
  "gh CLI not available or not authenticated - PR stats will be skipped"

/-- The process-wide state of github_prs.py: the memoized result of the
gh availability probe (is_gh_available, external I/O, computed at most
once per process) and the one-shot warning latch _gh_warning_shown. -/
structure GhState where
  available : Bool
  warningShown : Bool
  deriving DecidableEq

/-- show_gh_warning from github_prs.py: returns the warning string the
first time and sets the latch; returns none on every later call. The
latch is passed and returned explicitly. -/
def show_gh_warning (warningShown : Bool) : Option String × Bool :=
  if warningShown then (none, warningShown) else (some ghWarningMsg, true)

/-- A pull request as decoded from the gh JSON output, after its fields
parsed successfully. -/
structure RawPR where
  number : Int
  title : String
  state : String
  created_at : Int
  merged_at : Option Int
  url : String
  deriving DecidableEq

/-- The PRInfo built for one decoded record (github_prs.py lines
151-158): the title is truncated to 80 characters, the timestamps are
kept. -/
def mkPRInfo (pr : RawPR) : PRInfo :=
  { number := pr.number, title := pr.title.take 80, state := pr.state,
    created_at := pr.created_at, merged_at := pr.merged_at, url := pr.url }

/-- The outcome of the gh subprocess invocation in fetch_prs: a non-zero
exit with the given stderr, a json.loads failure with the given message,
or a decoded array of records where each element either parses or raises
with the given message while its fields are read (KeyError / bad
timestamp). -/
inductive GhOutcome
  | exitErr (stderr : String)
  | jsonErr (msg : String)
  | records (prs_data : List (Except String RawPR))

/-- The opened-in-window test of fetch_prs (github_prs.py line 161): the
creation timestamp is at or after the lower bound. -/
def prOpenedInWindow (since : Int) (pr : RawPR) : Bool :=
  decide (since ≤ pr.created_at)

/-- The merged-in-window test of fetch_prs (github_prs.py line 165): a
merge timestamp exists and is at or after the lower bound. -/
def prMergedInWindow (since : Int) (pr : RawPR) : Bool :=
  match pr.merged_at with
  | some m => decide (since ≤ m)
  | none => false

/-- The per-record loop of fetch_prs (github_prs.py lines 147-166),
returning (prs_opened, prs_merged, error). A record that raises stops
the loop and yields its message as the error; PRs already appended from
earlier records are kept, because the except clauses (lines 168-171)
only set result.error on the already-populated result. -/
def processPRs (since : Int) :
    List (Except String RawPR) → List PRInfo × List PRInfo × Option String
  | [] => ([], [], none)
  | Except.error e :: _ => ([], [], some e)
  | Except.ok pr :: rest =>
    let info := mkPRInfo pr
    let r := processPRs since rest
    let opened := if decide (since ≤ pr.created_at) then info :: r.1 else r.1
    let merged :=
      match pr.merged_at with
      | some m => if decide (since ≤ m) then info :: r.2.1 else r.2.1
      | none => r.2.1
    (opened, merged, r.2.2)

/-- fetch_prs from github_prs.py: fetch PRs for a repository using the
gh CLI. The memoized availability flag and the warning latch are threaded
explicitly as GhState; the remote resolution result (get_github_remote,
which reads the repository's git config) and the gh subprocess outcome
are passed in as data because they are external I/O. Returns the RepoPRs
and the updated state. -/
def fetch_prs (gh : GhState) (repo_path : String)
    (github_info : Option (String × String)) (outcome : GhOutcome)
    (since : Int) : RepoPRs × GhState :=
  let result : RepoPRs :=
    { repo_path := repo_path, repo_name := pathName repo_path, owner := "",
      prs_opened := [], prs_merged := [], error := none }
  if !gh.available then
    let w := show_gh_warning gh.warningShown
    ({ result with error := w.1 }, { gh with warningShown := w.2 })
  else
    match github_info with
    | none => (result, gh)
    | some (owner, repo_name) =>
      let result := { result with owner := owner, repo_name := repo_name }
      match outcome with
      | GhOutcome.exitErr stderr =>
        ({ result with error := some ("gh error: " ++ strTrim stderr) }, gh)
      | GhOutcome.jsonErr m =>
        ({ result with error := some ("Failed to parse gh output: " ++ m) }, gh)
      | GhOutcome.records prs_data =>
        let r := processPRs since prs_data
        ({ result with
            prs_opened := r.1
            prs_merged := r.2.1
            error := r.2.2 }, gh)

/-! ## The orchestrator (cli.py) -/

/-- One repository's inputs to a PR fetch: its path, its resolved remote
(if any) and the gh invocation outcome for it. -/
abbrev FetchInput := String × Option (String × String) × GhOutcome

/-- Successive fetch_prs calls over a list of repositories, threading the
process-wide GhState through the calls in order. -/
def runFetchSeq (gh : GhState) (since : Int) :
    List FetchInput → List RepoPRs × GhState
  | [] => ([], gh)
  | input :: rest =>
    let r := fetch_prs gh input.1 input.2.1 input.2.2 since
    let rs := runFetchSeq r.2 since rest
    (r.1 :: rs.1, rs.2)

/-- fetch_prs_parallel from cli.py (lines 99-128): if the gh CLI is not
available it short-circuits, building for every repository a RepoPRs with
empty owner, empty lists, and no error, without ever calling fetch_prs;
otherwise it runs fetch_prs over all repositories. The worker pool's
completion order is unspecified; it is modelled here as submission order
(the claims below only concern the unavailable branch, where no worker
runs). -/
def fetch_prs_parallel (gh : GhState) (since : Int)
    (repos : List FetchInput) : List RepoPRs × GhState :=
  if !gh.available then
    (repos.map (fun r =>
      { repo_path := r.1, repo_name := pathName r.1, owner := "",
        prs_opened := [], prs_merged := [], error := none }), gh)
  else
    runFetchSeq gh since repos

/-- The per-window commit filtering of cli.py main (lines 181-190): keep
the commits authored at or after the window's lower bound, preserving
path, name and error. -/
def filterRepoStats (since : Int) (rs : RepoStats) : RepoStats :=
  { path := rs.path, name := rs.name,
    commits := rs.commits.filter (fun c => decide (since ≤ c.authored_date)),
    error := rs.error }

/-- The per-window PR filtering of cli.py main (lines 193-203): keep the
opened PRs created at or after the bound and the merged PRs whose merge
timestamp exists and is at or after the bound, preserving path, name,
owner and error. -/
def filterRepoPRs (since : Int) (rp : RepoPRs) : RepoPRs :=
  { repo_path := rp.repo_path, repo_name := rp.repo_name, owner := rp.owner,
    prs_opened := rp.prs_opened.filter (fun p => decide (since ≤ p.created_at)),
    prs_merged := rp.prs_merged.filter (fun p =>
      match p.merged_at with
      | some m => decide (since ≤ m)
      | none => false),
    error := rp.error }

/-! ## Repository discovery (discovery.py) -/

/-- Config from discovery.py. The source's field names include / exclude
are kept as closely as Lean allows (include is a Lean keyword, so the
fields carry a Patterns suffix). -/
structure Config where
  includePatterns : List String
  excludePatterns : List String
  author_emails : List String
  deriving DecidableEq

/-- Python fnmatch translated to a matcher on character lists: a star
matches any (possibly empty) sequence of characters, slashes included; a
question mark matches any single character; every other character
matches itself. Bracket character classes are not modelled (no pattern
in this development contains one). The first Nat argument is fuel, there
only to make the recursion structural (each step shortens the pattern or
the string, so any fuel at least pattern length + string length is
enough and the result is then fuel-independent); the pattern is the
second argument. -/
def fnmatchGo : Nat → List Char → List Char → Bool
  | _, [], [] => true
  | _, [], _ :: _ => false
  | 0, _ :: _, _ => false
  | n + 1, '*' :: ps, [] => fnmatchGo n ps []
  | n + 1, '*' :: ps, c :: cs =>
    fnmatchGo n ps (c :: cs) || fnmatchGo n ('*' :: ps) cs
  | n + 1, '?' :: ps, _ :: cs => fnmatchGo n ps cs
  | n + 1, p :: ps, c :: cs => p == c && fnmatchGo n ps cs
  | _ + 1, _ :: _, [] => false

/-- fnmatch.fnmatch(name, pattern) on a POSIX system (normcase is the
identity there): full-string match of the translated pattern, run with
sufficient fuel. -/
def fnmatch (name pattern : String) : Bool :=
  fnmatchGo (pattern.length + name.length) pattern.data name.data

/-- expand_path from discovery.py: Path(p).expanduser().resolve(). The
home directory is passed explicitly; inputs are taken to be normalized
absolute paths with no symlinks, so resolve is the identity on the
already-absolute result. -/
def expand_path (home : String) (p : String) : String :=
  if p == "~" then home
  else
    match p.data with
    | '~' :: '/' :: rest => home ++ String.mk ( '/' :: rest)
    | _ => p

/-- Whether a character list contains two consecutive stars, modelling
the containment test for a double-star in matches_pattern. -/
def containsStarStar : List Char → Bool
  | '*' :: '*' :: _ => true
  | _ :: rest => containsStarStar rest
  | [] => false

/-- Python str.replace of a double-star by a single star, scanning left
to right over non-overlapping occurrences. -/
def collapseStarStar : List Char → List Char
  | '*' :: '*' :: rest => '*' :: collapseStarStar rest
  | c :: rest => c :: collapseStarStar rest
  | [] => []

/-- matches_pattern from discovery.py: expand the pattern, collapse any
double-star into a single star, and fnmatch the path string against it. -/
def matches_pattern (home : String) (path : String) (pattern : String) : Bool :=
  let pattern_expanded := expand_path home pattern
  let pattern_expanded :=
    if containsStarStar pattern_expanded.data then
      String.mk (collapseStarStar pattern_expanded.data)
    else pattern_expanded
  fnmatch path pattern_expanded

/-- The include/exclude filter applied to one candidate repository path
in find_repos (discovery.py lines 93-101): if include patterns exist the
path must match at least one; if it matches any exclude pattern it is
dropped. -/
def passesFilters (home : String) (config : Config) (repo_path : String) : Bool :=
  (config.includePatterns.isEmpty ||
    config.includePatterns.any (fun p => matches_pattern home repo_path p)) &&
  !(config.excludePatterns.any (fun p => matches_pattern home repo_path p))

/-- Lexicographic code-point comparison of character lists, the order
Python uses to compare strings. -/
def charListLt : List Char → List Char → Bool
  | [], [] => false
  | [], _ :: _ => true
  | _ :: _, [] => false
  | a :: as, b :: bs =>
    a.toNat < b.toNat || (a == b && charListLt as bs)

/-- Python string comparison a < b: lexicographic by code point. -/
def strLt (a b : String) : Bool :=
  charListLt a.data b.data

/-- Insertion of a string into a sorted list, for the final sorted() of
find_repos. -/
def insertSorted (s : String) : List String → List String
  | [] => [s]
  | t :: ts => if strLt t s then t :: insertSorted s ts else s :: t :: ts

/-- Insertion sort on strings, modelling Python sorted(). -/
def sortStrings : List String → List String
  | [] => []
  | s :: ss => insertSorted s (sortStrings ss)

/-- find_repos from discovery.py: the directory walk (root.rglob looking
for .git directories, external I/O) is passed in as the list of
discovered repository roots (each .git directory's parent); the function
applies the include/exclude filters and sorts the survivors. -/
def find_repos (home : String) (found : List String) (config : Config) :
    List String :=
  sortStrings (found.filter (fun r => passesFilters home config r))

/-! ## Concrete fixtures used by witnesses and counterexamples -/

/-- A commit authored at time 5 by a mixed-case email. -/
def rcA : RawCommit :=
  { hexsha := "aaaabbbbcccc", message := "first line\nrest",
    author_email := some "Alice@Example.com", authored_date := 5,
    stats := some (3, 1, 2) }

/-- A commit authored at time 20 by a different author, whose diffstat
computation failed. -/
def rcB : RawCommit :=
  { hexsha := "ddddeeeeffff", message := "second",
    author_email := some "bob@x.com", authored_date := 20, stats := none }

/-- A PR created at 15 and merged at 25. -/
def prX : RawPR :=
  { number := 1, title := "add feature", state := "MERGED",
    created_at := 15, merged_at := some 25, url := "https://e/1" }

/-- A PR created at 3 and never merged. -/
def prY : RawPR :=
  { number := 2, title := "fix bug", state := "OPEN",
    created_at := 3, merged_at := none, url := "https://e/2" }

/-- A repository extraction over both commits with no author filter. -/
def rsEx : RepoStats :=
  analyze_repo "/home/u/work/active/proj"
    (RepoAccess.valid false [ Except.ok rcA, Except.ok rcB]) [] 0

/-- A PR fetch over both PRs with the gh CLI available. -/
def rpEx : RepoPRs :=
  (fetch_prs ⟨true, false⟩ "/home/u/work/active/proj"
    (some ("acme", "widgets"))
    (GhOutcome.records [ Except.ok prX, Except.ok prY]) 0).1

/-- The include/exclude configuration of the Locator scenario. -/
def cfgEx : Config :=
  { includePatterns := [ "~/work/*"], excludePatterns := [ "~/work/archived"],
    author_emails := [] }

/-- The repositories the directory walk discovers in the Locator
scenario. -/
def reposFoundEx : List String :=
  [ "/home/u/work/archived/old-proj", "/home/u/work/active/proj"]

/-! ## Helper lemmas -/

/-- Unfolding the history walk over a prefix of successfully yielded
commits: they are filtered by the combined keep-condition and
normalized, and the walk continues on the remainder. -/
theorem walkCommits_ok_append (al : List String) (s : Int)
    (pre : List RawCommit) (l : List (Except String RawCommit)) :
    walkCommits al s (pre.map Except.ok ++ l) =
      ((pre.filter (keepCommit al s)).map mkCommitInfo ++ (walkCommits al s l).1,
       (walkCommits al s l).2) := by
  induction pre with
  | nil => simp [walkCommits]
  | cons c cs ih =>
    simp only [List.map_cons, List.cons_append, walkCommits]
    cases h1 : (!al.isEmpty && !al.contains (commitEmailLower c)) with
    | true =>
      have hk : keepCommit al s c = false := by
        simp only [keepCommit, h1, Bool.not_true, Bool.false_and]
      simp [h1, List.filter_cons, hk, ih]
    | false =>
      cases h2 : decide (c.authored_date < s) with
      | true =>
        have hk : keepCommit al s c = false := by
          simp only [keepCommit, h1, h2, Bool.not_false, Bool.true_and,
            Bool.not_true]
        simp [h1, h2, List.filter_cons, hk, ih]
      | false =>
        have hk : keepCommit al s c = true := by
          simp only [keepCommit, h1, h2, Bool.not_false, Bool.true_and]
        simp [h1, h2, List.filter_cons, hk, ih]

/-- Every commit record the history walk keeps has an authored timestamp
at or after the lower bound, whatever the iterator yields and wherever it
fails. -/
theorem walkCommits_time (al : List String) (s : Int)
    (l : List (Except String RawCommit)) :
    ∀ c ∈ (walkCommits al s l).1, s ≤ c.authored_date := by
  induction l with
  | nil => simp [walkCommits]
  | cons item rest ih =>
    cases item with
    | error e => simp [walkCommits]
    | ok c =>
      simp only [walkCommits]
      cases h1 : (!al.isEmpty && !al.contains (commitEmailLower c)) with
      | true => simpa [h1] using ih
      | false =>
        cases h2 : decide (c.authored_date < s) with
        | true => simpa [h1, h2] using ih
        | false =>
          simp only [h1, h2, Bool.false_eq_true, if_false, List.mem_cons]
          intro x hx
          rcases hx with hx | hx
          · subst hx
            simp only [mkCommitInfo]
            have := of_decide_eq_false h2
            omega
          · exact ih x hx

/-- Unfolding the PR-record loop over a prefix of successfully decoded
records: they are partitioned by the two window tests, and the loop
continues on the remainder. -/
theorem processPRs_ok_append (since : Int) (pre : List RawPR)
    (l : List (Except String RawPR)) :
    processPRs since (pre.map Except.ok ++ l) =
      ((pre.filter (prOpenedInWindow since)).map mkPRInfo ++ (processPRs since l).1,
       (pre.filter (prMergedInWindow since)).map mkPRInfo ++ (processPRs since l).2.1,
       (processPRs since l).2.2) := by
  induction pre with
  | nil => simp [processPRs]
  | cons pr prs ih =>
    have ho := prOpenedInWindow since pr
    cases h1 : decide (since ≤ pr.created_at) with
    | true =>
      have how : prOpenedInWindow since pr = true := by
        simp only [prOpenedInWindow, h1]
      cases hm : pr.merged_at with
      | none =>
        have hmw : prMergedInWindow since pr = false := by
          simp only [prMergedInWindow, hm]
        simp [processPRs, h1, hm, List.filter_cons, how, hmw, ih]
      | some m =>
        cases h2 : decide (since ≤ m) with
        | true =>
          have hmw : prMergedInWindow since pr = true := by
            simp only [prMergedInWindow, hm, h2]
          simp [processPRs, h1, hm, h2, List.filter_cons, how, hmw, ih]
        | false =>
          have hmw : prMergedInWindow since pr = false := by
            simp only [prMergedInWindow, hm, h2]
          simp [processPRs, h1, hm, h2, List.filter_cons, how, hmw, ih]
    | false =>
      have how : prOpenedInWindow since pr = false := by
        simp only [prOpenedInWindow, h1]
      cases hm : pr.merged_at with
      | none =>
        have hmw : prMergedInWindow since pr = false := by
          simp only [prMergedInWindow, hm]
        simp [processPRs, h1, hm, List.filter_cons, how, hmw, ih]
      | some m =>
        cases h2 : decide (since ≤ m) with
        | true =>
          have hmw : prMergedInWindow since pr = true := by
            simp only [prMergedInWindow, hm, h2]
          simp [processPRs, h1, hm, h2, List.filter_cons, how, hmw, ih]
        | false =>
          have hmw : prMergedInWindow since pr = false := by
            simp only [prMergedInWindow, hm, h2]
          simp [processPRs, h1, hm, h2, List.filter_cons, how, hmw, ih]

/-- After the warning latch is set, every further fetch with the gh CLI
unavailable returns the empty shape with no error and leaves the state
unchanged. -/
theorem runFetchSeq_after_latch (since : Int) (l : List FetchInput) :
    ((runFetchSeq ⟨false, true⟩ since l).1.all
      (fun r => r.error == none && r.owner == "" &&
        r.prs_opened.isEmpty && r.prs_merged.isEmpty)) = true ∧
    (runFetchSeq ⟨false, true⟩ since l).2 = ⟨false, true⟩ := by
  induction l with
  | nil => simp [runFetchSeq]
  | cons i rest ih =>
    simp only [runFetchSeq, fetch_prs, show_gh_warning]
    simp only [List.all_cons]
    refine ⟨?_, ?_⟩
    · simp [ih.1]
    · exact ih.2

/-! ## Claim theorems -/

/-- C1: window re-aggregation is monotonic: if window W1's lower bound is
at least W2's lower bound then, for the same repository results from the
same single extraction pass, W1's filtered commit list is a subset of
W2's, and likewise each repository's filtered opened-PR and merged-PR
lists. -/
theorem window_filter_monotonic (s1 s2 : Int) (h : s2 ≤ s1)
    (rs : RepoStats) (rp : RepoPRs) :
    (filterRepoStats s1 rs).commits ⊆ (filterRepoStats s2 rs).commits ∧
    (filterRepoPRs s1 rp).prs_opened ⊆ (filterRepoPRs s2 rp).prs_opened ∧
    (filterRepoPRs s1 rp).prs_merged ⊆ (filterRepoPRs s2 rp).prs_merged := by
  refine ⟨?_, ?_, ?_⟩
  · intro x hx
    simp only [filterRepoStats, List.mem_filter, decide_eq_true_eq] at hx ⊢
    exact ⟨hx.1, le_trans h hx.2⟩
  · intro x hx
    simp only [filterRepoPRs, List.mem_filter, decide_eq_true_eq] at hx ⊢
    exact ⟨hx.1, le_trans h hx.2⟩
  · intro x hx
    simp only [filterRepoPRs, List.mem_filter] at hx ⊢
    obtain ⟨hmem, hcond⟩ := hx
    refine ⟨hmem, ?_⟩
    cases hm : x.merged_at with
    | none =>
      rw [hm] at hcond
      exact absurd hcond (by simp)
    | some m =>
      rw [hm] at hcond
      have h1 : s1 ≤ m := by
        have hd : decide (s1 ≤ m) = true := hcond
        exact of_decide_eq_true hd
      show decide (s2 ≤ m) = true
      exact decide_eq_true (le_trans h h1)

/-- Witness for C1 at the concrete bounds 10 and 0 on the concrete
extraction and fetch results. -/
theorem window_filter_monotonic_witness :
    (0 : Int) ≤ 10 ∧
    ((filterRepoStats 10 rsEx).commits ⊆ (filterRepoStats 0 rsEx).commits ∧
     (filterRepoPRs 10 rpEx).prs_opened ⊆ (filterRepoPRs 0 rpEx).prs_opened ∧
     (filterRepoPRs 10 rpEx).prs_merged ⊆ (filterRepoPRs 0 rpEx).prs_merged) :=
  ⟨by norm_num, window_filter_monotonic 10 0 (by norm_num) rsEx rpEx⟩

/-- C9 as stated is false: for a path that is not a valid repository the
error string is "Not a valid git repository", not the claimed
"Not a valid repository". -/
theorem analyze_repo_invalid_message_cex :
    (analyze_repo "/r" RepoAccess.invalid [] 0).error ≠
      some "Not a valid repository" := by
  decide

/-- C9 (amended): for a path that is not a valid repository analyze_repo
returns error exactly "Not a valid git repository" with an empty commit
list, and for a bare repository error exactly "Bare repository" with an
empty commit list. -/
theorem analyze_repo_open_errors (path : String) (authors : List String)
    (since : Int) (iter : List (Except String RawCommit)) :
    ((analyze_repo path RepoAccess.invalid authors since).error =
        some "Not a valid git repository" ∧
      (analyze_repo path RepoAccess.invalid authors since).commits = []) ∧
    ((analyze_repo path (RepoAccess.valid true iter) authors since).error =
        some "Bare repository" ∧
      (analyze_repo path (RepoAccess.valid true iter) authors since).commits = []) := by
  simp [analyze_repo]

/-- C6: every commit in the extractor's returned list has an authored
timestamp at or after the lower bound: each candidate yielded by the
history walk is re-checked against its exact timestamp and dropped if
strictly before the bound, whatever the walk itself yielded. -/
theorem analyze_repo_time_lower_bound (path : String) (access : RepoAccess)
    (authors : List String) (since : Int) (c : CommitInfo)
    (hc : c ∈ (analyze_repo path access authors since).commits) :
    since ≤ c.authored_date := by
  cases access with
  | invalid => simp [analyze_repo] at hc
  | valid bare iter =>
    cases bare with
    | true => simp [analyze_repo] at hc
    | false =>
      simp only [analyze_repo] at hc
      exact walkCommits_time (authors.map strLower) since iter c hc

set_option maxRecDepth 8000 in
/-- Witness for C6: the concrete commit authored at 5 survives a walk
with lower bound 3 and indeed satisfies the bound. -/
theorem analyze_repo_time_lower_bound_witness :
    mkCommitInfo rcA ∈
      (analyze_repo "/p" (RepoAccess.valid false [ Except.ok rcA]) [] 3).commits ∧
    (3 : Int) ≤ (mkCommitInfo rcA).authored_date :=
  ⟨by decide,
   analyze_repo_time_lower_bound "/p" (RepoAccess.valid false [ Except.ok rcA])
     [] 3 (mkCommitInfo rcA) (by decide)⟩

/-- C3 as stated is false: when the history walk fails after yielding a
commit, analyze_repo returns the error message together with the commits
collected before the failure, so a partial commit list does accompany the
error. -/
theorem analyze_repo_error_keeps_commits_cex :
    (analyze_repo "/r/proj"
        (RepoAccess.valid false
          [ Except.ok rcA, Except.error "object file is corrupt"]) [] 0).error =
      some "object file is corrupt" ∧
    (analyze_repo "/r/proj"
        (RepoAccess.valid false
          [ Except.ok rcA, Except.error "object file is corrupt"]) [] 0).commits ≠
      [] := by
  decide

/-- C3 (amended): an unrecoverable error while walking history yields a
RepoStats carrying that error message together with exactly the commits
that survived the filters before the failure point; they are retained,
not discarded. -/
theorem analyze_repo_error_with_collected_commits (path : String)
    (authors : List String) (since : Int) (pre : List RawCommit) (e : String)
    (post : List (Except String RawCommit)) :
    (analyze_repo path
        (RepoAccess.valid false (pre.map Except.ok ++ Except.error e :: post))
        authors since).error = some e ∧
    (analyze_repo path
        (RepoAccess.valid false (pre.map Except.ok ++ Except.error e :: post))
        authors since).commits =
      (pre.filter (keepCommit (authors.map strLower) since)).map mkCommitInfo := by
  have h := walkCommits_ok_append (authors.map strLower) since pre
    (Except.error e :: post)
  simp only [analyze_repo, h, walkCommits]
  simp

/-- C7: with an empty author identity set the extractor applies no author
filter (only the date re-check), and with a non-empty set it keeps
exactly the candidates whose lowercased author email appears in the
lowercased identity set (a case-insensitive match), dropping all
others. -/
theorem analyze_repo_author_filter (path : String) (cands : List RawCommit)
    (authors : List String) (since : Int) :
    ((analyze_repo path (RepoAccess.valid false (cands.map Except.ok)) []
        since).commits =
      (cands.filter (fun c => !decide (c.authored_date < since))).map
        mkCommitInfo) ∧
    (authors ≠ [] →
      (analyze_repo path (RepoAccess.valid false (cands.map Except.ok)) authors
          since).commits =
        (cands.filter (fun c =>
          (authors.map strLower).contains (commitEmailLower c) &&
          !decide (c.authored_date < since))).map mkCommitInfo) := by
  constructor
  · have h := walkCommits_ok_append ([].map strLower) since cands []
    simp only [List.map_nil, List.append_nil, walkCommits] at h
    simp only [analyze_repo, List.map_nil, h]
    congr 1
  · intro hne
    have h := walkCommits_ok_append (authors.map strLower) since cands []
    simp only [List.append_nil, walkCommits] at h
    simp only [analyze_repo, h]
    congr 1
    apply List.filter_congr
    intro c _
    have hempty : (authors.map strLower).isEmpty = false := by
      cases authors with
      | nil => exact absurd rfl hne
      | cons a as => simp
    simp [keepCommit, hempty]

set_option maxRecDepth 8000 in
/-- Witness for C7: filtering for alice@example.com keeps exactly the
commit authored by Alice@Example.com (case-insensitive match) and drops
the one by bob@x.com. -/
theorem analyze_repo_author_filter_witness :
    ([ "alice@example.com"] ≠ ([] : List String)) ∧
    (analyze_repo "/p"
        (RepoAccess.valid false [ Except.ok rcA, Except.ok rcB])
        [ "alice@example.com"] 0).commits = [ mkCommitInfo rcA] :=
  ⟨by decide, by
    have h :=
      (analyze_repo_author_filter "/p" [ rcA, rcB] [ "alice@example.com"] 0).2
        (by decide)
    simp only [List.map_cons, List.map_nil] at h
    rw [h]
    decide⟩

/-- C5: when the gh call succeeds and every record parses, a PR lands in
the opened partition iff its creation timestamp is at or after the lower
bound, and in the merged partition iff it has a merge timestamp at or
after the lower bound; a PR satisfying both tests appears in both
partitions. -/
theorem fetch_prs_partition (warningShown : Bool)
    (repo_path owner repo_name : String) (recs : List RawPR) (since : Int) :
    ((fetch_prs ⟨true, warningShown⟩ repo_path (some (owner, repo_name))
        (GhOutcome.records (recs.map Except.ok)) since).1.prs_opened =
      (recs.filter (prOpenedInWindow since)).map mkPRInfo) ∧
    ((fetch_prs ⟨true, warningShown⟩ repo_path (some (owner, repo_name))
        (GhOutcome.records (recs.map Except.ok)) since).1.prs_merged =
      (recs.filter (prMergedInWindow since)).map mkPRInfo) ∧
    (∀ pr ∈ recs, prOpenedInWindow since pr = true →
      prMergedInWindow since pr = true →
      mkPRInfo pr ∈ (fetch_prs ⟨true, warningShown⟩ repo_path
        (some (owner, repo_name)) (GhOutcome.records (recs.map Except.ok))
        since).1.prs_opened ∧
      mkPRInfo pr ∈ (fetch_prs ⟨true, warningShown⟩ repo_path
        (some (owner, repo_name)) (GhOutcome.records (recs.map Except.ok))
        since).1.prs_merged) := by
  have h := processPRs_ok_append since recs []
  simp only [List.append_nil, processPRs] at h
  have ho : (fetch_prs ⟨true, warningShown⟩ repo_path (some (owner, repo_name))
      (GhOutcome.records (recs.map Except.ok)) since).1.prs_opened =
      (recs.filter (prOpenedInWindow since)).map mkPRInfo := by
    simp [fetch_prs, h]
  have hm : (fetch_prs ⟨true, warningShown⟩ repo_path (some (owner, repo_name))
      (GhOutcome.records (recs.map Except.ok)) since).1.prs_merged =
      (recs.filter (prMergedInWindow since)).map mkPRInfo := by
    simp [fetch_prs, h]
  refine ⟨ho, hm, ?_⟩
  intro pr hpr hob hmb
  constructor
  · rw [ho]
    exact List.mem_map_of_mem _ (List.mem_filter.mpr ⟨hpr, hob⟩)
  · rw [hm]
    exact List.mem_map_of_mem _ (List.mem_filter.mpr ⟨hpr, hmb⟩)

set_option maxRecDepth 8000 in
/-- Witness for C5: the concrete PR created at 15 and merged at 25 passes
both window tests for bound 0 and appears in both partitions. -/
theorem fetch_prs_partition_witness :
    prX ∈ ([ prX] : List RawPR) ∧
    mkPRInfo prX ∈ (fetch_prs ⟨true, false⟩ "/p" (some ("o", "n"))
        (GhOutcome.records ([ prX].map Except.ok)) 0).1.prs_opened ∧
    mkPRInfo prX ∈ (fetch_prs ⟨true, false⟩ "/p" (some ("o", "n"))
        (GhOutcome.records ([ prX].map Except.ok)) 0).1.prs_merged :=
  ⟨by decide,
   (fetch_prs_partition false "/p" "o" "n" [ prX] 0).2.2 prX (by decide)
     (by decide) (by decide)⟩

set_option maxRecDepth 8000 in
/-- C8 as stated is false: a PR record whose fields fail to parse
mid-list leaves the PRs partitioned from earlier records in the lists
alongside the error string. -/
theorem fetch_prs_error_keeps_prs_cex :
    ((fetch_prs ⟨true, false⟩ "/p" (some ("o", "n"))
        (GhOutcome.records [ Except.ok prX, Except.error "KeyError"]) 0).1.error =
      some "KeyError") ∧
    ((fetch_prs ⟨true, false⟩ "/p" (some ("o", "n"))
        (GhOutcome.records [ Except.ok prX, Except.error "KeyError"]) 0).1.prs_opened ≠
      []) := by
  decide

/-- C8 (amended): a non-zero gh exit or unparseable JSON output yields a
RepoPRs with an error string and both PR lists empty; but a PR record
whose fields cannot be parsed mid-list yields the error string alongside
the PRs already partitioned from the records before it, which are
retained. -/
theorem fetch_prs_error_handling (ws : Bool) (p o rn stderr m : String)
    (since : Int) (pre : List RawPR) (e : String)
    (post : List (Except String RawPR)) :
    ((fetch_prs ⟨true, ws⟩ p (some (o, rn)) (GhOutcome.exitErr stderr)
        since).1.error = some ("gh error: " ++ strTrim stderr) ∧
      (fetch_prs ⟨true, ws⟩ p (some (o, rn)) (GhOutcome.exitErr stderr)
        since).1.prs_opened = [] ∧
      (fetch_prs ⟨true, ws⟩ p (some (o, rn)) (GhOutcome.exitErr stderr)
        since).1.prs_merged = []) ∧
    ((fetch_prs ⟨true, ws⟩ p (some (o, rn)) (GhOutcome.jsonErr m)
        since).1.error = some ("Failed to parse gh output: " ++ m) ∧
      (fetch_prs ⟨true, ws⟩ p (some (o, rn)) (GhOutcome.jsonErr m)
        since).1.prs_opened = [] ∧
      (fetch_prs ⟨true, ws⟩ p (some (o, rn)) (GhOutcome.jsonErr m)
        since).1.prs_merged = []) ∧
    ((fetch_prs ⟨true, ws⟩ p (some (o, rn))
        (GhOutcome.records (pre.map Except.ok ++ Except.error e :: post))
        since).1.error = some e ∧
      (fetch_prs ⟨true, ws⟩ p (some (o, rn))
        (GhOutcome.records (pre.map Except.ok ++ Except.error e :: post))
        since).1.prs_opened =
        (pre.filter (prOpenedInWindow since)).map mkPRInfo ∧
      (fetch_prs ⟨true, ws⟩ p (some (o, rn))
        (GhOutcome.records (pre.map Except.ok ++ Except.error e :: post))
        since).1.prs_merged =
        (pre.filter (prMergedInWindow since)).map mkPRInfo) := by
  have h := processPRs_ok_append since pre (Except.error e :: post)
  simp only [processPRs, List.append_nil] at h
  refine ⟨⟨?_, ?_, ?_⟩, ⟨?_, ?_, ?_⟩, ⟨?_, ?_, ?_⟩⟩ <;>
    simp [fetch_prs, h]

set_option maxRecDepth 8000 in
/-- C2 as stated is false: with the hosting CLI unavailable the CLI's
parallel fetcher short-circuits and never invokes fetch_prs, so across
two repositories the warning string is attached to zero results — not
exactly one — and no result carries any error. -/
theorem gh_warning_zero_in_run_cex :
    ((fetch_prs_parallel ⟨false, false⟩ 0
        [ ("/a/r1", none, GhOutcome.records []),
          ("/a/r2", none, GhOutcome.records [])]).1.countP
      (fun r => r.error == some ghWarningMsg) ≠ 1) ∧
    ((fetch_prs_parallel ⟨false, false⟩ 0
        [ ("/a/r1", none, GhOutcome.records []),
          ("/a/r2", none, GhOutcome.records [])]).1.all
      (fun r => r.error == none) = true) := by
  decide

/-- C2 (amended): the one-shot latch lives in fetch_prs itself: invoked
directly over two or more repositories with the CLI unavailable, every
call returns a RepoPRs with empty owner and empty PR lists, exactly the
first result carries the warning string, and every later result carries
no error; the CLI's parallel fetcher, however, short-circuits before
fetch_prs, so in a CLI run every result is error-free and the warning is
surfaced zero times. -/
theorem fetch_prs_warning_latch (since : Int) (i1 i2 : FetchInput)
    (rest : List FetchInput) :
    ((runFetchSeq ⟨false, false⟩ since (i1 :: i2 :: rest)).1.countP
        (fun r => r.error == some ghWarningMsg) = 1) ∧
    ((runFetchSeq ⟨false, false⟩ since (i1 :: i2 :: rest)).1.all
        (fun r => r.owner == "" && r.prs_opened.isEmpty &&
          r.prs_merged.isEmpty) = true) ∧
    ((runFetchSeq ⟨false, false⟩ since (i1 :: i2 :: rest)).1.head?.map
        (fun r => r.error) = some (some ghWarningMsg)) ∧
    ((runFetchSeq ⟨false, false⟩ since (i1 :: i2 :: rest)).1.tail.all
        (fun r => r.error == none) = true) ∧
    ((fetch_prs_parallel ⟨false, false⟩ since (i1 :: i2 :: rest)).1.all
        (fun r => r.error == none) = true) := by
  obtain ⟨hall, hstate⟩ := runFetchSeq_after_latch since (i2 :: rest)
  have hfirst : fetch_prs ⟨false, false⟩ i1.1 i1.2.1 i1.2.2 since =
      ({ repo_path := i1.1, repo_name := pathName i1.1, owner := "",
         prs_opened := [], prs_merged := [], error := some ghWarningMsg },
       ⟨false, true⟩) := by
    simp [fetch_prs, show_gh_warning]
  have hrun : runFetchSeq ⟨false, false⟩ since (i1 :: i2 :: rest) =
      (({ repo_path := i1.1, repo_name := pathName i1.1, owner := "",
          prs_opened := [], prs_merged := [], error := some ghWarningMsg } :
          RepoPRs) :: (runFetchSeq ⟨false, true⟩ since (i2 :: rest)).1,
       (runFetchSeq ⟨false, true⟩ since (i2 :: rest)).2) := by
    simp only [runFetchSeq, hfirst]
  have hprops : ∀ r ∈ (runFetchSeq ⟨false, true⟩ since (i2 :: rest)).1,
      r.error = none ∧ r.owner = "" ∧ r.prs_opened = [] ∧
        r.prs_merged = [] := by
    intro r hr
    have hx := List.all_eq_true.mp hall r hr
    simp only [Bool.and_eq_true, beq_iff_eq, List.isEmpty_iff] at hx
    exact ⟨hx.1.1.1, hx.1.1.2, hx.1.2, hx.2⟩
  refine ⟨?_, ?_, ?_, ?_, ?_⟩
  · rw [hrun]
    simp only [List.countP_cons]
    have hz : (runFetchSeq ⟨false, true⟩ since (i2 :: rest)).1.countP
        (fun r => r.error == some ghWarningMsg) = 0 := by
      rw [List.countP_eq_zero]
      intro a ha
      simp [(hprops a ha).1]
    simp [hz]
  · rw [hrun]
    rw [List.all_eq_true]
    intro r hr
    rcases List.mem_cons.mp hr with h | h
    · subst h
      rfl
    · obtain ⟨_, h2, h3, h4⟩ := hprops r h
      simp [h2, h3, h4]
  · rw [hrun]
    rfl
  · rw [hrun]
    simp only [List.tail_cons]
    rw [List.all_eq_true]
    intro r hr
    simp [(hprops r hr).1]
  · simp only [fetch_prs_parallel]
    rw [if_pos (by decide)]
    rw [List.all_eq_true]
    intro r hr
    simp only [List.mem_map] at hr
    obtain ⟨x, _, rfl⟩ := hr
    rfl

set_option maxRecDepth 8000 in
/-- C10 as stated is false: when the remote resolves, fetch_prs
overwrites the display name with the remote's repository name, which can
differ from the last segment of the stored repository path. -/
theorem repo_name_remote_override_cex :
    (fetch_prs ⟨true, false⟩ "/home/u/code/myfork" (some ("acme", "widgets"))
        (GhOutcome.records []) 0).1.repo_name ≠
      pathName (fetch_prs ⟨true, false⟩ "/home/u/code/myfork"
        (some ("acme", "widgets")) (GhOutcome.records []) 0).1.repo_path := by
  decide

/-- C10 (amended): the extractor always sets the display name to the
last segment of the stored path; window re-aggregation preserves names
and paths of both result kinds unchanged; the PR fetcher's display name
equals the last path segment when the CLI is unavailable or no remote
resolves, but when a remote resolves it is replaced by the remote's
repository name, which need not equal the last path segment. -/
theorem display_name_invariant (path : String) (access : RepoAccess)
    (authors : List String) (since s2 : Int) (rs : RepoStats) (rp : RepoPRs)
    (ws : Bool) (info : Option (String × String)) (outcome : GhOutcome)
    (o rn : String) :
    ((analyze_repo path access authors since).name =
        pathName (analyze_repo path access authors since).path) ∧
    ((filterRepoStats s2 rs).name = rs.name ∧
      (filterRepoStats s2 rs).path = rs.path) ∧
    ((filterRepoPRs s2 rp).repo_name = rp.repo_name ∧
      (filterRepoPRs s2 rp).repo_path = rp.repo_path) ∧
    ((fetch_prs ⟨false, ws⟩ path info outcome since).1.repo_name =
        pathName (fetch_prs ⟨false, ws⟩ path info outcome since).1.repo_path) ∧
    ((fetch_prs ⟨true, ws⟩ path none outcome since).1.repo_name =
        pathName (fetch_prs ⟨true, ws⟩ path none outcome since).1.repo_path) ∧
    ((fetch_prs ⟨true, ws⟩ path (some (o, rn)) outcome since).1.repo_name =
        rn) := by
  refine ⟨?_, ⟨rfl, rfl⟩, ⟨rfl, rfl⟩, ?_, ?_, ?_⟩
  · cases access with
    | invalid => simp [analyze_repo]
    | valid bare iter => cases bare <;> simp [analyze_repo]
  · simp [fetch_prs, show_gh_warning]
  · simp [fetch_prs]
  · cases outcome <;> simp [fetch_prs]

/-- C4 as stated is false: with include pattern ~/work/* and exclude
pattern ~/work/archived, the discovered repository at
~/work/archived/old-proj is NOT excluded: fnmatch matches the
wildcard-free exclude pattern only against the exact path, so the
repository appears in the Locator's output. -/
theorem locator_scenario_cex :
    ("/home/u/work/archived/old-proj" : String) ∈
      find_repos "/home/u" reposFoundEx cfgEx := by
  decide

/-- C4 (amended): with those patterns ~/work/active/proj is included,
and ~/work/archived/old-proj is also included rather than excluded: the
wildcard-free exclude pattern matches only the exact path
~/work/archived, not paths beneath it. -/
theorem locator_scenario_amended :
    ("/home/u/work/active/proj" : String) ∈
      find_repos "/home/u" reposFoundEx cfgEx ∧
    ("/home/u/work/archived/old-proj" : String) ∈
      find_repos "/home/u" reposFoundEx cfgEx ∧
    matches_pattern "/home/u" "/home/u/work/archived/old-proj"
      "~/work/archived" = false ∧
    matches_pattern "/home/u" "/home/u/work/archived" "~/work/archived" =
      true := by
  refine ⟨by decide, by decide, by decide, by decide⟩

end DevReport
